import Mathlib

/-!
Verification of the core numeric and state subsystems of the
Real-Time-Product-Generation repository: the edit-history stack, the
per-pixel editing pipeline (sharpen convolution, color adjust, vignette),
the letterboxed coordinate projection with pinch scaling, and the
stroke-to-binary-mask encoder.  Pixel samples are bytes (natural numbers
up to 255); intermediate arithmetic is exact rational arithmetic, with the
canvas byte store modelled by rounding half to even and clamping to
[0, 255], as Uint8ClampedArray does.
-/

/-! ## Byte store and pixel access -/

/-- Rounding half to even on rationals, the rounding mode used by
Uint8ClampedArray when a computed sample is written back to a canvas. -/
def roundHalfEven (q : ℚ) : ℤ :=
  let n := ⌊q⌋
  let r := q - n
  if r < 1 / 2 then n
  else if 1 / 2 < r then n + 1
  else if n % 2 = 0 then n else n + 1

/-- Byte store of a computed rational sample: round half to even, then
clamp into [0, 255], as Uint8ClampedArray assignment does. -/
def toByte (q : ℚ) : ℕ :=
  (min 255 (max 0 (roundHalfEven q))).toNat

/-- Read a byte of a flat RGBA buffer as a rational sample (out-of-range
reads give 0, as reading a typed array out of range gives undefined which
the arithmetic of the source never relies on). -/
def px (data : List ℕ) (i : ℕ) : ℚ :=
  (data.getD i 0 : ℚ)

/-! ## Edits record (components/types, interface Edits) -/

/-- Edits record from components/types: slider values, 100 is the neutral
value of brightness, contrast and saturation, 0 of sharpen and vignette. -/
structure Edits where
  brightness : ℚ
  contrast : ℚ
  saturation : ℚ
  sharpen : ℚ
  vignette : ℚ

/-! ## Sharpen convolution (applySharpen in App.tsx and ImageUploader.tsx) -/

/-- Flat convolution weights from applySharpen:
weights = [0, -1, 0, -1, 5, -1, 0, -1, 0], indexed by cy * 3 + cx. -/
def sharpenWeights : List ℚ :=
  [0, -1, 0, -1, 5, -1, 0, -1, 0]

/-- Inner loop of applySharpen for one destination pixel (x, y) and one
color channel ch: accumulate weights[cy * 3 + cx] times the source sample
at the edge-clamped position.  Nat subtraction y + cy - 1 agrees with
Math.max(0, y + cy - halfSide) of the source. -/
def convChannel (w h : ℕ) (data : List ℕ) (x y ch : ℕ) : ℚ :=
  ((List.range 3).map (fun cy =>
    ((List.range 3).map (fun cx =>
      sharpenWeights.getD (cy * 3 + cx) 0 *
        px data ((min (h - 1) (y + cy - 1) * w + min (w - 1) (x + cx - 1)) * 4 + ch))).sum)).sum

/-- applySharpen from App.tsx (the copy in ImageUploader.tsx is
identical): early return when amount is not positive, otherwise for every
flat offset write the blend original * (1 - strength) + convolved *
strength, copying the alpha byte through. -/
def applySharpen (w h : ℕ) (amount : ℚ) (data : List ℕ) : List ℕ :=
  if amount ≤ 0 then data
  else
    (List.range (w * h * 4)).map (fun i =>
      let ch := i % 4
      let p := i / 4
      let y := p / w
      let x := p % w
      if ch = 3 then data.getD i 0
      else toByte (px data i * (1 - amount / 100) + convChannel w h data x y ch * (amount / 100)))

/-! ## Color adjust (the canvas filter string of the source) -/

/-- Modelled from the spec: the source sets the canvas 2d filter
brightness(b%), a browser primitive not present in the repository; the
spec describes it as a linear scale of each color channel, alpha
untouched, stored back as bytes. -/
def applyBrightness (b : ℚ) (data : List ℕ) : List ℕ :=
  (List.range data.length).map (fun i =>
    if i % 4 = 3 then data.getD i 0
    else toByte (px data i * (b / 100)))

/-- Modelled from the spec: the canvas 2d filter contrast(c%), a browser
primitive not present in the repository; the spec describes it as a scale
around mid-gray (255 / 2), alpha untouched. -/
def applyContrast (c : ℚ) (data : List ℕ) : List ℕ :=
  (List.range data.length).map (fun i =>
    if i % 4 = 3 then data.getD i 0
    else toByte ((px data i - 255 / 2) * (c / 100) + 255 / 2))

/-- Modelled from the spec: the canvas 2d filter saturate(s%), a browser
primitive not present in the repository; the spec describes it as a blend
of each color channel toward the pixel luma, alpha untouched.  The luma
weights 0.213, 0.715, 0.072 are the standard filter weights. -/
def applySaturate (s : ℚ) (data : List ℕ) : List ℕ :=
  (List.range data.length).map (fun i =>
    if i % 4 = 3 then data.getD i 0
    else
      let p := i / 4
      let luma := 213 / 1000 * px data (p * 4) + 715 / 1000 * px data (p * 4 + 1) +
        72 / 1000 * px data (p * 4 + 2)
      toByte (luma + s / 100 * (px data i - luma)))

/-- Modelled from the spec: the combined filter string
brightness(b%) contrast(c%) saturate(s%) of applyEditsToImageFile and of
the preview effect, applied left to right as the filter list semantics
prescribe. -/
def colorAdjust (brightness contrast saturation : ℚ) (data : List ℕ) : List ℕ :=
  applySaturate saturation (applyContrast contrast (applyBrightness brightness data))

/-! ## Vignette (applyEditsToImageFile in App.tsx, step 3) -/

/-- Gradient opacity of the vignette at distance d from the image center,
from createRadialGradient(w/2, h/2, h/4, w/2, h/2, outerRadius) with color
stops 0 at offset 0, strength * 0.2 at offset 0.5 and strength * 0.7 at
offset 1: the gradient parameter t is the position of d between the inner
radius h / 4 and outerRadius, clamped to [0, 1], and the opacity is the
piecewise-linear interpolation of the stops at t.  outerRadius stands for
sqrt(w * w + h * h) / 2 of the source, which is irrational in general;
theorems supply it together with its defining property. -/
def vignetteAlpha (h outerRadius strength d : ℚ) : ℚ :=
  let r0 := h / 4
  let t := if d ≤ r0 then 0 else if outerRadius ≤ d then 1 else (d - r0) / (outerRadius - r0)
  if t ≤ 1 / 2 then strength * (2 / 10) * (t / (1 / 2))
  else strength * (2 / 10) + (strength * (7 / 10) - strength * (2 / 10)) * ((t - 1 / 2) / (1 / 2))

/-- Composite of the black radial gradient over the buffer
(ctx.fillStyle = gradient; ctx.fillRect(0, 0, w, h)): painting black with
opacity a over an opaque pixel scales each color channel by 1 - a and
leaves the alpha byte; alpha is the gradient opacity at the pixel. -/
def applyVignetteOverlay (w : ℕ) (alpha : ℕ → ℕ → ℚ) (data : List ℕ) : List ℕ :=
  (List.range data.length).map (fun i =>
    if i % 4 = 3 then data.getD i 0
    else toByte (px data i * (1 - alpha (i / 4 % w) (i / 4 / w))))

/-- Vignette block of applyEditsToImageFile: only when edits.vignette > 0,
with strength = vignette / 100, composite the radial gradient; dist x y
stands for the Euclidean distance of the pixel from the image center,
which is irrational in general and is supplied as a function. -/
def vignetteStage (w h : ℕ) (vignetteAmount outerRadius : ℚ) (dist : ℕ → ℕ → ℚ)
    (data : List ℕ) : List ℕ :=
  if 0 < vignetteAmount then
    applyVignetteOverlay w
      (fun x y => vignetteAlpha (h : ℚ) outerRadius (vignetteAmount / 100) (dist x y)) data
  else data

/-! ## The two editing passes -/

/-- Committed full-resolution pass, applyEditsToImageFile in App.tsx:
draw the image, applySharpen on the raw pixels, then the filter string
brightness/contrast/saturate, then the vignette block. -/
def commitPipeline (w h : ℕ) (outerRadius : ℚ) (dist : ℕ → ℕ → ℚ) (e : Edits)
    (data : List ℕ) : List ℕ :=
  vignetteStage w h e.vignette outerRadius dist
    (colorAdjust e.brightness e.contrast e.saturation (applySharpen w h e.sharpen data))

/-- Preview pass, effect 2 of ImageUploader.tsx: draw the down-scaled
source through the filter string brightness/contrast/saturate first, then
applySharpen on the filtered pixels; the vignette is not applied to the
pixel buffer at all (it is previewed as a CSS box shadow). -/
def previewPipeline (w h : ℕ) (e : Edits) (data : List ℕ) : List ℕ :=
  applySharpen w h e.sharpen (colorAdjust e.brightness e.contrast e.saturation data)

/-! ## History stack (App.tsx sceneHistory / historyIndex) -/

/-- Commit of a new history entry, as in handleApplyEdits,
handleConfirmPlacement and handleApplyInpainting:
newHistory = sceneHistory.slice(0, historyIndex + 1); newHistory.push(e);
historyIndex = newHistory.length - 1. -/
def commitHistory {α : Type} (hist : List α) (idx : ℤ) (e : α) : List α × ℤ :=
  let newHistory := hist.take (idx + 1).toNat ++ [e]
  (newHistory, (newHistory.length : ℤ) - 1)

/-- handleUndo from App.tsx: decrement the cursor only when it is
positive. -/
def undoHistory (idx : ℤ) : ℤ :=
  if 0 < idx then idx - 1 else idx

/-! ## Placement model (App.tsx placedProduct, ImageUploader.tsx gestures) -/

/-- Numeric part of the PlacedProduct record of App.tsx. -/
structure PlacedProduct where
  xPercent : ℚ
  yPercent : ℚ
  scale : ℚ
deriving DecidableEq

/-- handleProductDrop from App.tsx: a drop creates a proposal at the
projected position with scale 1.0. -/
def productDrop (xPercent yPercent : ℚ) : PlacedProduct :=
  ⟨xPercent, yPercent, 1⟩

/-- Drag translation from handlePreviewDragMove / handlePreviewTouchMove
of ImageUploader.tsx: the screen-pixel delta is divided by the container
size, scaled to percent, and added to the position captured at gesture
start.  No clamping is applied. -/
def dragMove (startXPercent startYPercent rectW rectH deltaX deltaY : ℚ) : ℚ × ℚ :=
  (startXPercent + deltaX / rectW * 100, startYPercent + deltaY / rectH * 100)

/-- Pinch scale update from handlePreviewTouchMove of ImageUploader.tsx:
scaleFactor = currentDist / initialDist, newScale = initialScale *
scaleFactor, stored as Math.max(0.1, Math.min(newScale, 5.0)).  The
source has no guard for initialDist = 0; there the rational model (where
division by zero yields 0) departs from the JavaScript source, which
produces Infinity (clamped to 5.0) or, when currentDist is also 0, NaN,
stored unclamped.  Theorems about the clamp range therefore assume a
nonzero start distance; the zero case is the division-by-zero defect
recorded against the pinch claim. -/
def pinchScale (initialScale initialDist currentDist : ℚ) : ℚ :=
  max (1 / 10) (min (initialScale * (currentDist / initialDist)) 5)

/-! ## Geometry engine (handlePlacement in ImageUploader.tsx,
handleTouchEnd in App.tsx) -/

/-- Aspect-fit rendered size: when the image aspect ratio exceeds the
container aspect ratio the content spans the container width, otherwise
the container height. -/
def renderedSize (containerW containerH imageW imageH : ℚ) : ℚ × ℚ :=
  if imageW / imageH > containerW / containerH then
    (containerW, containerW / (imageW / imageH))
  else
    (containerH * (imageW / imageH), containerH)

/-- Centered letterbox offsets: the unused margin split evenly. -/
def letterboxOffset (containerW containerH imageW imageH : ℚ) : ℚ × ℚ :=
  ((containerW - (renderedSize containerW containerH imageW imageH).1) / 2,
   (containerH - (renderedSize containerW containerH imageW imageH).2) / 2)

/-- Projection of a pointer position into image-relative percentages,
from handlePlacement of ImageUploader.tsx: subtract the letterbox offset;
when the result is outside [0, renderedWidth] x [0, renderedHeight]
return nothing, otherwise the position as a percentage of the rendered
size. -/
def projectPoint (containerW containerH imageW imageH pointX pointY : ℚ) : Option (ℚ × ℚ) :=
  let rw := (renderedSize containerW containerH imageW imageH).1
  let rh := (renderedSize containerW containerH imageW imageH).2
  let imageX := pointX - (letterboxOffset containerW containerH imageW imageH).1
  let imageY := pointY - (letterboxOffset containerW containerH imageW imageH).2
  if imageX < 0 ∨ imageX > rw ∨ imageY < 0 ∨ imageY > rh then none
  else some (imageX / rw * 100, imageY / rh * 100)

/-! ## Edit session controller around external calls (App.tsx) -/

/-- handleConfirmPlacement of App.tsx as a state transition on
(history, cursor, proposal, error): the external compositing call either
returns a new entry or fails; on success the entry is committed; in both
cases the finally block clears the proposal.  A missing proposal only
sets an error. -/
def confirmPlacement {α : Type} (hist : List α) (idx : ℤ) (placed : Option PlacedProduct)
    (outcome : Except String α) : List α × ℤ × Option PlacedProduct × Option String :=
  match placed with
  | none => (hist, idx, none, some "An unexpected error occurred. Missing product or scene data.")
  | some _ =>
    match outcome with
    | .ok e =>
      let r := commitHistory hist idx e
      (r.1, r.2, none, none)
    | .error msg => (hist, idx, none, some ("Failed to generate the image. " ++ msg))

/-- handleApplyInpainting of App.tsx as a state transition on
(history, cursor, error): a missing mask (getMaskAsFile returned nothing)
only sets the user-facing message; otherwise the external inpainting call
either returns a new entry, which is committed, or fails, which sets an
error and leaves the history untouched. -/
def applyInpainting {α : Type} (hist : List α) (idx : ℤ) (mask : Option (List ℕ))
    (outcome : Except String α) : List α × ℤ × Option String :=
  match mask with
  | none => (hist, idx, some "Please paint a mask over the object you want to remove before confirming.")
  | some _ =>
    match outcome with
    | .ok e =>
      let r := commitHistory hist idx e
      (r.1, r.2, none)
    | .error msg => (hist, idx, some ("Failed to remove object from the scene. " ++ msg))

/-! ## Mask encoder (getMaskAsFile in ImageUploader.tsx, handleConfirm in
the background removal modal) -/

/-- Painted-pixel check of getMaskAsFile: scan the alpha bytes (flat
offsets 3, 7, 11, ...) for a positive value. -/
def hasDrawing (data : List ℕ) : Bool :=
  (List.range (data.length / 4)).any (fun p => decide (0 < data.getD (p * 4 + 3) 0))

/-- Binarization loop shared by both mask paths: every pixel with alpha
above 0 becomes opaque white, every other pixel opaque black. -/
def maskPixels (data : List ℕ) : List ℕ :=
  (List.range (data.length / 4)).flatMap
    (fun p => if 0 < data.getD (p * 4 + 3) 0 then [255, 255, 255, 255] else [0, 0, 0, 255])

/-- getMaskAsFile of ImageUploader.tsx: return nothing when no pixel was
painted, otherwise the binarized mask. -/
def getMaskAsFile (data : List ℕ) : Option (List ℕ) :=
  if hasDrawing data then some (maskPixels data) else none

/-- handleConfirm of the background removal modal: the same binarization
loop, but with no painted-pixel check before it. -/
def modalConfirmMask (data : List ℕ) : List ℕ :=
  (List.range (data.length / 4)).flatMap
    (fun p => if 0 < data.getD (p * 4 + 3) 0 then [255, 255, 255, 255] else [0, 0, 0, 255])

/-! ## Claim vocabulary -/

/-- Sharpen kernel of the claims, as the 3 x 3 matrix
[[0, -1, 0], [-1, 5, -1], [0, -1, 0]] indexed by signed offsets. -/
def sharpenKernel (dy dx : ℤ) : ℚ :=
  if dy = 0 ∧ dx = 0 then 5
  else if dy = 0 ∨ dx = 0 then -1
  else 0

/-- Edge-replicate clamping of a signed coordinate into [0, n - 1]. -/
def clampCoord (n : ℕ) (z : ℤ) : ℕ :=
  (min ((n : ℤ) - 1) (max 0 z)).toNat

/-- Source sample at an edge-replicate clamped coordinate. -/
def sampleClamped (w h : ℕ) (data : List ℕ) (xz yz : ℤ) (ch : ℕ) : ℚ :=
  px data ((clampCoord h yz * w + clampCoord w xz) * 4 + ch)

/-- Convolution of the claims: sum of kernel entries times edge-replicate
clamped samples over the signed offsets -1, 0, 1. -/
def convKernel (w h : ℕ) (data : List ℕ) (x y ch : ℕ) : ℚ :=
  (([-1, 0, 1] : List ℤ).map (fun dy =>
    (([-1, 0, 1] : List ℤ).map (fun dx =>
      sharpenKernel dy dx * sampleClamped w h data ((x : ℤ) + dx) ((y : ℤ) + dy) ch)).sum)).sum

/-- All-white opaque RGBA buffer of n pixels. -/
def allWhiteMask (n : ℕ) : List ℕ :=
  (List.range n).flatMap (fun _ => [255, 255, 255, 255])

/-- Binary buffer of the claims: each pixel either fully opaque white or
fully opaque black. -/
def binaryPixels (ps : List Bool) : List ℕ :=
  ps.flatMap (fun b => if b then [255, 255, 255, 255] else [0, 0, 0, 255])

/-! ## Helper lemmas -/

theorem getD_map_range (f : ℕ → ℕ) (n j : ℕ) (h : j < n) :
    ((List.range n).map f).getD j 0 = f j := by
  simp [List.getD_eq_getElem?_getD, List.getElem?_map, List.getElem?_range h]

theorem toByte_le (q : ℚ) : toByte q ≤ 255 := by
  simp only [toByte]
  omega

theorem toByte_natCast (n : ℕ) (hn : n ≤ 255) : toByte (n : ℚ) = n := by
  have h0 : roundHalfEven (n : ℚ) = n := by
    simp only [roundHalfEven, Int.floor_natCast, sub_self]
    norm_num
  simp only [toByte, h0]
  omega

theorem getD_le_of_forall {data : List ℕ} (hdata : ∀ v ∈ data, v ≤ 255) (i : ℕ) :
    data.getD i 0 ≤ 255 := by
  by_cases h : i < data.length
  · rw [List.getD_eq_getElem data 0 h]
    exact hdata _ (List.getElem_mem h)
  · rw [List.getD_eq_getElem?_getD, List.getElem?_eq_none (by omega)]
    simp

theorem map_range_eq_self {data : List ℕ} (f : ℕ → ℕ)
    (hf : ∀ i < data.length, f i = data.getD i 0) :
    (List.range data.length).map f = data := by
  apply List.ext_getElem (by simp)
  intro i h1 h2
  simp only [List.getElem_map, List.getElem_range]
  rw [hf i h2, List.getD_eq_getElem data 0 h2]

theorem applyBrightness_hundred {data : List ℕ} (hdata : ∀ v ∈ data, v ≤ 255) :
    applyBrightness 100 data = data := by
  unfold applyBrightness
  apply map_range_eq_self
  intro i hi
  by_cases h : i % 4 = 3
  · simp [h]
  · simp only [h, if_false, px]
    have h1 : ((data.getD i 0 : ℕ) : ℚ) * (100 / 100) = ((data.getD i 0 : ℕ) : ℚ) := by
      norm_num
    rw [h1, toByte_natCast _ (getD_le_of_forall hdata i)]

theorem applyContrast_hundred {data : List ℕ} (hdata : ∀ v ∈ data, v ≤ 255) :
    applyContrast 100 data = data := by
  unfold applyContrast
  apply map_range_eq_self
  intro i hi
  by_cases h : i % 4 = 3
  · simp [h]
  · simp only [h, if_false, px]
    have h1 : (((data.getD i 0 : ℕ) : ℚ) - 255 / 2) * (100 / 100) + 255 / 2 =
        ((data.getD i 0 : ℕ) : ℚ) := by
      norm_num
    rw [h1, toByte_natCast _ (getD_le_of_forall hdata i)]

theorem applySaturate_hundred {data : List ℕ} (hdata : ∀ v ∈ data, v ≤ 255) :
    applySaturate 100 data = data := by
  unfold applySaturate
  apply map_range_eq_self
  intro i hi
  by_cases h : i % 4 = 3
  · simp [h]
  · simp only [h, if_false, px]
    have h1 : ∀ luma : ℚ, luma + 100 / 100 * (((data.getD i 0 : ℕ) : ℚ) - luma) =
        ((data.getD i 0 : ℕ) : ℚ) := by
      intro luma
      ring_nf
    rw [h1, toByte_natCast _ (getD_le_of_forall hdata i)]

theorem colorAdjust_hundred {data : List ℕ} (hdata : ∀ v ∈ data, v ≤ 255) :
    colorAdjust 100 100 100 data = data := by
  unfold colorAdjust
  rw [applyBrightness_hundred hdata, applyContrast_hundred hdata, applySaturate_hundred hdata]

theorem applySharpen_le {w h : ℕ} {amount : ℚ} {data : List ℕ}
    (hdata : ∀ v ∈ data, v ≤ 255) :
    ∀ v ∈ applySharpen w h amount data, v ≤ 255 := by
  intro v hv
  unfold applySharpen at hv
  by_cases ha : amount ≤ 0
  · rw [if_pos ha] at hv
    exact hdata v hv
  · rw [if_neg ha] at hv
    obtain ⟨i, hi, rfl⟩ := List.mem_map.1 hv
    dsimp only
    by_cases hch : i % 4 = 3
    · simp only [hch, if_pos]
      exact getD_le_of_forall hdata i
    · simp only [hch, if_false]
      exact toByte_le _

theorem renderedSize_pos {containerW containerH imageW imageH : ℚ}
    (hcw : 0 < containerW) (hch : 0 < containerH) (hiw : 0 < imageW) (hih : 0 < imageH) :
    0 < (renderedSize containerW containerH imageW imageH).1 ∧
    0 < (renderedSize containerW containerH imageW imageH).2 := by
  unfold renderedSize
  by_cases hc : imageW / imageH > containerW / containerH
  · rw [if_pos hc]
    exact ⟨hcw, div_pos hcw (div_pos hiw hih)⟩
  · rw [if_neg hc]
    exact ⟨mul_pos hch (div_pos hiw hih), hch⟩

theorem projectPoint_result_bounds {containerW containerH imageW imageH pointX pointY : ℚ}
    (hcw : 0 < containerW) (hch : 0 < containerH) (hiw : 0 < imageW) (hih : 0 < imageH)
    {r : ℚ × ℚ} (hr : projectPoint containerW containerH imageW imageH pointX pointY = some r) :
    0 ≤ r.1 ∧ r.1 ≤ 100 ∧ 0 ≤ r.2 ∧ r.2 ≤ 100 := by
  obtain ⟨hrw, hrh⟩ := renderedSize_pos hcw hch hiw hih
  simp only [projectPoint] at hr
  split at hr
  · exact absurd hr (by simp)
  · rename_i hcond
    push_neg at hcond
    obtain ⟨h1, h2, h3, h4⟩ := hcond
    rw [Option.some.injEq] at hr
    subst hr
    refine ⟨?_, ?_, ?_, ?_⟩
    · exact mul_nonneg (div_nonneg h1 hrw.le) (by norm_num)
    · calc (pointX - (letterboxOffset containerW containerH imageW imageH).1) /
            (renderedSize containerW containerH imageW imageH).1 * 100 ≤ 1 * 100 :=
            mul_le_mul_of_nonneg_right ((div_le_one hrw).2 h2) (by norm_num)
      _ = 100 := by norm_num
    · exact mul_nonneg (div_nonneg h3 hrh.le) (by norm_num)
    · calc (pointY - (letterboxOffset containerW containerH imageW imageH).2) /
            (renderedSize containerW containerH imageW imageH).2 * 100 ≤ 1 * 100 :=
            mul_le_mul_of_nonneg_right ((div_le_one hrh).2 h4) (by norm_num)
      _ = 100 := by norm_num

theorem flatMap_range_congr {α : Type} (n : ℕ) (f g : ℕ → List α)
    (h : ∀ p < n, f p = g p) :
    (List.range n).flatMap f = (List.range n).flatMap g := by
  induction n with
  | zero => rfl
  | succ n ih =>
    rw [List.range_succ, List.flatMap_append, List.flatMap_append,
      ih (fun p hp => h p (by omega))]
    simp [h n (by omega)]

theorem binaryPixels_length (ps : List Bool) : (binaryPixels ps).length = 4 * ps.length := by
  induction ps with
  | nil => rfl
  | cons b ps ih =>
    unfold binaryPixels at *
    rw [List.flatMap_cons, List.length_append, ih]
    cases b <;> simp <;> omega

theorem binaryPixels_alpha (ps : List Bool) (p : ℕ) (hp : p < ps.length) :
    (binaryPixels ps).getD (p * 4 + 3) 0 = 255 := by
  induction ps generalizing p with
  | nil => simp at hp
  | cons b ps ih =>
    unfold binaryPixels at *
    rw [List.flatMap_cons]
    cases p with
    | zero =>
      have hlen : (if b then [255, 255, 255, 255] else ([0, 0, 0, 255] : List ℕ)).length = 4 := by
        cases b <;> rfl
      rw [show (0 * 4 + 3 : ℕ) = 3 by norm_num, List.getD_append _ _ _ _ (by omega)]
      cases b <;> rfl
    | succ p =>
      have hlen : (if b then [255, 255, 255, 255] else ([0, 0, 0, 255] : List ℕ)).length = 4 := by
        cases b <;> rfl
      have hidx : (p + 1) * 4 + 3 = 4 + (p * 4 + 3) := by ring
      rw [hidx, List.getD_append_right _ _ _ _ (by omega)]
      have : 4 + (p * 4 + 3) -
          (if b then [255, 255, 255, 255] else ([0, 0, 0, 255] : List ℕ)).length = p * 4 + 3 := by
        omega
      rw [this]
      exact ih p (by simpa using hp)

theorem allWhiteMask_eq_binary (n : ℕ) : allWhiteMask n = binaryPixels (List.replicate n true) := by
  induction n with
  | zero => rfl
  | succ n ih =>
    unfold allWhiteMask binaryPixels at *
    rw [List.range_succ, List.flatMap_append, ih, List.replicate_succ',
      List.flatMap_append]
    rfl

theorem hasDrawing_binaryPixels (ps : List Bool) (hne : ps ≠ []) :
    hasDrawing (binaryPixels ps) = true := by
  have hpos : 0 < ps.length := List.length_pos.2 hne
  unfold hasDrawing
  rw [List.any_eq_true]
  refine ⟨0, ?_, ?_⟩
  · rw [List.mem_range, binaryPixels_length]
    omega
  · rw [decide_eq_true_eq, binaryPixels_alpha ps 0 hpos]
    omega

theorem maskPixels_binaryPixels (ps : List Bool) :
    maskPixels (binaryPixels ps) = allWhiteMask ps.length := by
  unfold maskPixels allWhiteMask
  rw [binaryPixels_length, show 4 * ps.length / 4 = ps.length by omega]
  apply flatMap_range_congr
  intro p hp
  rw [binaryPixels_alpha ps p hp]
  norm_num

theorem getMaskAsFile_binary (ps : List Bool) (hne : ps ≠ []) :
    getMaskAsFile (binaryPixels ps) = some (allWhiteMask ps.length) := by
  unfold getMaskAsFile
  rw [hasDrawing_binaryPixels ps hne]
  simp [maskPixels_binaryPixels]

/-! ## Claim theorems -/

/-- C2: commit truncates every entry strictly after the cursor, appends
the new entry, and moves the cursor to the new last index; in particular
from stack [A, B, C] at cursor 2, undo, undo, commit D yields [A, D] at
cursor 1 (here A, B, C, D are the entries 0, 1, 2, 3). -/
theorem c2_commit_semantics :
    (∀ (hist : List ℕ) (idx : ℤ) (e : ℕ), 0 ≤ idx → idx < hist.length →
      commitHistory hist idx e = (hist.take (idx.toNat + 1) ++ [e], idx + 1)) ∧
    commitHistory [0, 1, 2] (undoHistory (undoHistory 2)) 3 = ([0, 3], 1) := by
  constructor
  · intro hist idx e h0 hlen
    unfold commitHistory
    have h1 : (idx + 1).toNat = idx.toNat + 1 := by omega
    rw [h1]
    have h2 : (hist.take (idx.toNat + 1)).length = idx.toNat + 1 := by
      rw [List.length_take]
      omega
    simp only [Prod.mk.injEq, List.length_append, h2]
    refine ⟨trivial, ?_⟩
    simp only [List.length_cons, List.length_nil]
    push_cast
    omega
  · decide

/-- C2 witness: the general commit statement applied to the stack
[10, 20] at cursor 1. -/
theorem c2_commit_semantics_witness :
    (0 : ℤ) ≤ 1 ∧ (1 : ℤ) < ([10, 20] : List ℕ).length ∧
    commitHistory [10, 20] 1 30 = (([10, 20] : List ℕ).take ((1 : ℤ).toNat + 1) ++ [30], 1 + 1) :=
  ⟨by decide, by decide, c2_commit_semantics.1 [10, 20] 1 30 (by decide) (by decide)⟩

/-- C3: projectPoint returns a result exactly when the pointer, after the
centered letterbox offsets are subtracted, lies inside the rendered
rectangle, and every returned percentage pair lies in [0, 100] x
[0, 100]. -/
theorem c3_projectPoint_spec (containerW containerH imageW imageH pointX pointY : ℚ)
    (hcw : 0 < containerW) (hch : 0 < containerH) (hiw : 0 < imageW) (hih : 0 < imageH) :
    ((projectPoint containerW containerH imageW imageH pointX pointY).isSome ↔
      (0 ≤ pointX - (letterboxOffset containerW containerH imageW imageH).1 ∧
       pointX - (letterboxOffset containerW containerH imageW imageH).1 ≤
         (renderedSize containerW containerH imageW imageH).1 ∧
       0 ≤ pointY - (letterboxOffset containerW containerH imageW imageH).2 ∧
       pointY - (letterboxOffset containerW containerH imageW imageH).2 ≤
         (renderedSize containerW containerH imageW imageH).2)) ∧
    ∀ r ∈ projectPoint containerW containerH imageW imageH pointX pointY,
      0 ≤ r.1 ∧ r.1 ≤ 100 ∧ 0 ≤ r.2 ∧ r.2 ≤ 100 := by
  constructor
  · simp only [projectPoint]
    split
    · rename_i hcond
      simp only [Option.isSome_none, Bool.false_eq_true, false_iff]
      intro hcontra
      obtain ⟨h1, h2, h3, h4⟩ := hcontra
      rcases hcond with h | h | h | h <;> linarith
    · rename_i hcond
      push_neg at hcond
      simp only [Option.isSome_some, true_iff]
      exact ⟨hcond.1, hcond.2.1, hcond.2.2.1, hcond.2.2.2⟩
  · intro r hr
    rw [Option.mem_def] at hr
    exact projectPoint_result_bounds hcw hch hiw hih hr

/-- C3 witness: a 100 x 100 container with a 50 x 50 image and the
pointer at (60, 40). -/
theorem c3_projectPoint_spec_witness :
    (0 : ℚ) < 100 ∧ (0 : ℚ) < 50 ∧
    (((projectPoint 100 100 50 50 60 40).isSome ↔
      (0 ≤ 60 - (letterboxOffset 100 100 50 50).1 ∧
       60 - (letterboxOffset 100 100 50 50).1 ≤ (renderedSize 100 100 50 50).1 ∧
       0 ≤ 40 - (letterboxOffset 100 100 50 50).2 ∧
       40 - (letterboxOffset 100 100 50 50).2 ≤ (renderedSize 100 100 50 50).2)) ∧
     ∀ r ∈ projectPoint 100 100 50 50 60 40,
       0 ≤ r.1 ∧ r.1 ≤ 100 ∧ 0 ≤ r.2 ∧ r.2 ≤ 100) :=
  ⟨by norm_num, by norm_num,
    c3_projectPoint_spec 100 100 50 50 60 40 (by norm_num) (by norm_num) (by norm_num)
      (by norm_num)⟩

/-- C4: the pinch handler has no guard for a zero start distance.  In
this rational model division by zero yields 0, so the update returns the
lower clamp 0.1 instead of keeping the scale at initialScale = 1; in the
JavaScript source the same expression divides by zero and produces
Infinity or NaN, so the stored scale becomes 5.0 or NaN, never the
claimed no-op factor of 1. -/
theorem c4_pinch_zero_distance :
    pinchScale 1 0 2 = 1 / 10 ∧ pinchScale 1 0 2 ≠ 1 := by
  constructor <;> norm_num [pinchScale, div_zero, min_def, max_def]

/-- C5 counterexample: a failing compositing call does not leave the
placement proposal in place: the finally block of handleConfirmPlacement
clears it, so after the failure the proposal is none rather than the
original proposal. -/
theorem c5_counterexample :
    (confirmPlacement [0] 0 (some ⟨50, 50, 1⟩) (.error "network error")).2.2.1 = none ∧
    (some (⟨50, 50, 1⟩ : PlacedProduct)) ≠ none := by
  exact ⟨rfl, by simp⟩

/-- C5 amended: when the external call fails, the history stack and
cursor are unchanged and a retryable error is surfaced, but the active
placement proposal is cleared (set to none) rather than preserved, in
both the confirm-placement and the inpainting commit paths. -/
theorem c5_amended_failure_semantics :
    ∀ (hist : List ℕ) (idx : ℤ) (p : PlacedProduct) (msg : String) (mask : List ℕ),
      confirmPlacement hist idx (some p) (.error msg) =
        (hist, idx, none, some ("Failed to generate the image. " ++ msg)) ∧
      applyInpainting hist idx (some mask) (.error msg) =
        (hist, idx, some ("Failed to remove object from the scene. " ++ msg)) := by
  intro hist idx p msg mask
  exact ⟨rfl, rfl⟩

/-- C6 counterexample: on an all-transparent stroke layer the
remove-object path rejects (getMaskAsFile yields nothing), but the manual
background-removal modal performs no emptiness check and produces an
all-black mask. -/
theorem c6_counterexample :
    getMaskAsFile [0, 0, 0, 0] = none ∧ modalConfirmMask [0, 0, 0, 0] = [0, 0, 0, 255] := by
  decide

/-- C6 amended: a stroke layer in which every pixel has alpha 0 is
rejected by getMaskAsFile (no mask produced) and the remove-object path
surfaces the recoverable user-facing message without touching the
history; the manual background-removal path has no such rejection. -/
theorem c6_amended_empty_mask (data : List ℕ)
    (hempty : ∀ p < data.length / 4, data.getD (p * 4 + 3) 0 = 0) :
    getMaskAsFile data = none ∧
    ∀ (hist : List ℕ) (idx : ℤ) (outcome : Except String ℕ),
      applyInpainting hist idx (getMaskAsFile data) outcome =
        (hist, idx,
          some "Please paint a mask over the object you want to remove before confirming.") := by
  have h : hasDrawing data = false := by
    unfold hasDrawing
    rw [List.any_eq_false]
    intro p hp
    rw [List.mem_range] at hp
    simp only [decide_eq_true_eq]
    rw [hempty p hp]
    omega
  have hnone : getMaskAsFile data = none := by
    unfold getMaskAsFile
    rw [h]
    simp
  refine ⟨hnone, fun hist idx outcome => ?_⟩
  rw [hnone]
  rfl

/-- C6 witness: the one-pixel all-transparent layer. -/
theorem c6_amended_empty_mask_witness :
    (∀ p < ([0, 0, 0, 0] : List ℕ).length / 4, ([0, 0, 0, 0] : List ℕ).getD (p * 4 + 3) 0 = 0) ∧
    (getMaskAsFile [0, 0, 0, 0] = none ∧
      ∀ (hist : List ℕ) (idx : ℤ) (outcome : Except String ℕ),
        applyInpainting hist idx (getMaskAsFile [0, 0, 0, 0]) outcome =
          (hist, idx,
            some "Please paint a mask over the object you want to remove before confirming.")) :=
  ⟨by decide, c6_amended_empty_mask [0, 0, 0, 0] (by decide)⟩

/-- C8 counterexample: the encoder keys on alpha alone, so the binary
buffer with one white and one black pixel re-encodes to the all-white
buffer, not to itself. -/
theorem c8_counterexample :
    getMaskAsFile (binaryPixels [true, false]) = some (allWhiteMask 2) ∧
    allWhiteMask 2 ≠ binaryPixels [true, false] := by
  decide

/-- C8 amended: every pixel of a binary black/white buffer is fully
opaque, so the encoder maps every nonempty binary buffer to the all-white
buffer of the same size; it is idempotent precisely on the all-white
buffers, not on all binary buffers. -/
theorem c8_amended_binary_encode (ps : List Bool) (hne : ps ≠ []) :
    getMaskAsFile (binaryPixels ps) = some (allWhiteMask ps.length) ∧
    getMaskAsFile (allWhiteMask ps.length) = some (allWhiteMask ps.length) := by
  refine ⟨getMaskAsFile_binary ps hne, ?_⟩
  have hpos : 0 < ps.length := List.length_pos.2 hne
  have hne2 : List.replicate ps.length true ≠ [] := by
    have hlen : 0 < (List.replicate ps.length true).length := by simpa using hpos
    exact List.length_pos.1 hlen
  conv_lhs => rw [allWhiteMask_eq_binary]
  rw [getMaskAsFile_binary _ hne2, List.length_replicate]

/-- C8 witness: the two-pixel binary buffer with a white and a black
pixel. -/
theorem c8_amended_binary_encode_witness :
    ([true, false] : List Bool) ≠ [] ∧
    (getMaskAsFile (binaryPixels [true, false]) = some (allWhiteMask 2) ∧
      getMaskAsFile (allWhiteMask 2) = some (allWhiteMask 2)) :=
  ⟨by decide, c8_amended_binary_encode [true, false] (by decide)⟩

/-- C9 counterexample: one drag whose horizontal delta equals the
container width moves a proposal from xPercent = 50 to xPercent = 150,
outside [0, 100]: drag translation applies unclamped percentage
deltas. -/
theorem c9_counterexample :
    (dragMove 50 50 100 100 100 0).1 = 150 ∧ ¬(dragMove 50 50 100 100 100 0).1 ≤ 100 := by
  constructor <;> norm_num [dragMove]

/-- C9 amended: a proposal is created with scale 1.0 and, when created
from a projectPoint result, with position in [0, 100] x [0, 100]; every
pinch update whose start distance is nonzero keeps the scale inside
[0.1, 5] (a pinch starting at distance 0 divides by zero, the defect
recorded against the pinch claim, so no clamp invariant is asserted for
it); but drag translation adds unclamped percentage deltas and can move
the position outside [0, 100]. -/
theorem c9_amended_invariants :
    (∀ x y : ℚ, (productDrop x y).scale = 1) ∧
    (∀ s d0 dt : ℚ, d0 ≠ 0 → 1 / 10 ≤ pinchScale s d0 dt ∧ pinchScale s d0 dt ≤ 5) ∧
    (∀ containerW containerH imageW imageH pointX pointY : ℚ, ∀ r : ℚ × ℚ,
      0 < containerW → 0 < containerH → 0 < imageW → 0 < imageH →
      projectPoint containerW containerH imageW imageH pointX pointY = some r →
      0 ≤ (productDrop r.1 r.2).xPercent ∧ (productDrop r.1 r.2).xPercent ≤ 100 ∧
      0 ≤ (productDrop r.1 r.2).yPercent ∧ (productDrop r.1 r.2).yPercent ≤ 100) := by
  refine ⟨fun x y => rfl, fun s d0 dt hd0 => ⟨le_max_left _ _, ?_⟩, ?_⟩
  · exact max_le (by norm_num) (min_le_right _ 5)
  · intro containerW containerH imageW imageH pointX pointY r hcw hch hiw hih hr
    exact projectPoint_result_bounds hcw hch hiw hih hr

/-- C9 witness: the pointer (60, 40) in a 100 x 100 container with a
50 x 50 image, and a pinch from distance 1 to distance 3 at scale 2. -/
theorem c9_amended_invariants_witness :
    (0 : ℚ) < 100 ∧ (0 : ℚ) < 50 ∧ projectPoint 100 100 50 50 60 40 = some (60, 40) ∧
    (1 : ℚ) ≠ 0 ∧
    (1 / 10 ≤ pinchScale 2 1 3 ∧ pinchScale 2 1 3 ≤ 5) ∧
    (0 ≤ (productDrop (60 : ℚ) (40 : ℚ)).xPercent ∧ (productDrop (60 : ℚ) (40 : ℚ)).xPercent ≤ 100 ∧
     0 ≤ (productDrop (60 : ℚ) (40 : ℚ)).yPercent ∧
     (productDrop (60 : ℚ) (40 : ℚ)).yPercent ≤ 100) := by
  have hp : projectPoint 100 100 50 50 60 40 = some (60, 40) := by
    norm_num [projectPoint, renderedSize, letterboxOffset]
  exact ⟨by norm_num, by norm_num, hp, by norm_num,
    c9_amended_invariants.2.1 2 1 3 (by norm_num),
    c9_amended_invariants.2.2 100 100 50 50 60 40 (60, 40) (by norm_num) (by norm_num)
      (by norm_num) (by norm_num) hp⟩

/-- C7 counterexample: for a 3 x 4 image the outer radius is 5/2, and at
full strength the gradient opacity at 50 percent of the half-diagonal,
d = 5/4, is 1/15, not the claimed 0.2 x strength = 1/5: the 0.2 stop sits
at gradient offset 0.5 between the inner radius h/4 and the outer radius,
not at half the outer radius. -/
theorem c7_counterexample :
    vignetteAlpha 4 (5 / 2) 1 (5 / 4) = 1 / 15 ∧ (1 / 15 : ℚ) ≠ 1 / 5 := by
  constructor
  · norm_num [vignetteAlpha]
  · norm_num

/-- C7 amended: vignette with amount 0 leaves the buffer unchanged; for
a positive amount the gradient is fully transparent at every distance up
to the inner radius h/4 (hence at min(w, h)/4), reaches 0.2 x strength at
the radius midway between h/4 and the outer radius (half the image
diagonal), and 0.7 x strength at and beyond the outer radius. -/
theorem c7_amended_vignette :
    (∀ (w h : ℕ) (outerRadius : ℚ) (dist : ℕ → ℕ → ℚ) (data : List ℕ),
      vignetteStage w h 0 outerRadius dist data = data) ∧
    (∀ h outerRadius s d : ℚ, h / 4 < outerRadius →
      (d ≤ h / 4 → vignetteAlpha h outerRadius s d = 0) ∧
      vignetteAlpha h outerRadius s ((h / 4 + outerRadius) / 2) = s * (2 / 10) ∧
      (outerRadius ≤ d → vignetteAlpha h outerRadius s d = s * (7 / 10))) := by
  constructor
  · intro w h outerRadius dist data
    simp [vignetteStage]
  · intro h outerRadius s d hro
    refine ⟨?_, ?_, ?_⟩
    · intro hd
      rw [vignetteAlpha]
      rw [if_pos hd]
      norm_num
    · rw [vignetteAlpha]
      have hne : outerRadius - h / 4 ≠ 0 := by linarith
      have h1 : ¬((h / 4 + outerRadius) / 2 ≤ h / 4) := by
        intro hcon
        linarith
      have h2 : ¬(outerRadius ≤ (h / 4 + outerRadius) / 2) := by
        intro hcon
        linarith
      rw [if_neg h1, if_neg h2]
      have h3 : ((h / 4 + outerRadius) / 2 - h / 4) / (outerRadius - h / 4) = 1 / 2 := by
        rw [show (h / 4 + outerRadius) / 2 - h / 4 = (outerRadius - h / 4) / 2 by ring,
          div_div, mul_comm, ← div_div, div_self hne]
      rw [h3, if_pos (by norm_num)]
      norm_num
    · intro hd
      rw [vignetteAlpha]
      have h1 : ¬(d ≤ h / 4) := by
        intro hcon
        linarith
      rw [if_neg h1, if_pos hd, if_neg (by norm_num)]
      ring

/-- C7 witness: image 3 x 4, outer radius 5/2, strength 1, with the
outer-region distance d = 3. -/
theorem c7_amended_vignette_witness :
    (4 : ℚ) / 4 < 5 / 2 ∧
    (((3 : ℚ) ≤ 4 / 4 → vignetteAlpha 4 (5 / 2) 1 3 = 0) ∧
      vignetteAlpha 4 (5 / 2) 1 ((4 / 4 + 5 / 2) / 2) = 1 * (2 / 10) ∧
      ((5 : ℚ) / 2 ≤ 3 → vignetteAlpha 4 (5 / 2) 1 3 = 1 * (7 / 10))) :=
  ⟨by norm_num, c7_amended_vignette.2 4 (5 / 2) 1 3 (by norm_num)⟩

theorem convChannel_eq_convKernel (w h : ℕ) (data : List ℕ) (x y ch : ℕ) :
    convChannel w h data x y ch = convKernel w h data x y ch := by
  have e1 : ∀ n c : ℕ, min (n - 1) (c - 1) = (min ((n : ℤ) - 1) (max 0 ((c : ℤ) + (-1)))).toNat := by
    intro n c
    omega
  have e2 : ∀ n c : ℕ, min (n - 1) c = (min ((n : ℤ) - 1) (max 0 (c : ℤ))).toNat := by
    intro n c
    omega
  have e3 : ∀ n c : ℕ, min (n - 1) (c + 1) = (min ((n : ℤ) - 1) (max 0 ((c : ℤ) + 1))).toNat := by
    intro n c
    omega
  have e4 : ∀ c : ℕ, c + 2 - 1 = c + 1 := by
    intro c
    omega
  have w00 : sharpenWeights.getD (0 * 3 + 0) 0 = 0 := rfl
  have w01 : sharpenWeights.getD (0 * 3 + 1) 0 = -1 := rfl
  have w02 : sharpenWeights.getD (0 * 3 + 2) 0 = 0 := rfl
  have w10 : sharpenWeights.getD (1 * 3 + 0) 0 = -1 := rfl
  have w11 : sharpenWeights.getD (1 * 3 + 1) 0 = 5 := rfl
  have w12 : sharpenWeights.getD (1 * 3 + 2) 0 = -1 := rfl
  have w20 : sharpenWeights.getD (2 * 3 + 0) 0 = 0 := rfl
  have w21 : sharpenWeights.getD (2 * 3 + 1) 0 = -1 := rfl
  have w22 : sharpenWeights.getD (2 * 3 + 2) 0 = 0 := rfl
  have k00 : sharpenKernel (-1) (-1) = 0 := rfl
  have k01 : sharpenKernel (-1) 0 = -1 := rfl
  have k02 : sharpenKernel (-1) 1 = 0 := rfl
  have k10 : sharpenKernel 0 (-1) = -1 := rfl
  have k11 : sharpenKernel 0 0 = 5 := rfl
  have k12 : sharpenKernel 0 1 = -1 := rfl
  have k20 : sharpenKernel 1 (-1) = 0 := rfl
  have k21 : sharpenKernel 1 0 = -1 := rfl
  have k22 : sharpenKernel 1 1 = 0 := rfl
  unfold convChannel convKernel sampleClamped clampCoord
  rw [show List.range 3 = [0, 1, 2] from rfl]
  simp only [List.map_cons, List.map_nil, List.sum_cons, List.sum_nil,
    w00, w01, w02, w10, w11, w12, w20, w21, w22,
    k00, k01, k02, k10, k11, k12, k20, k21, k22,
    Nat.add_zero, add_zero, Nat.add_sub_cancel, e4]
  simp only [e1]
  simp only [e3]
  simp only [e2]

/-- C10: applySharpen with amount at most 0 is the identity transform on
the buffer; for positive amount, each color byte R, G, B at pixel (x, y)
is the stored blend original * (1 - s) + convolved * s with s =
amount / 100, where convolved is the 3 x 3 convolution with the kernel
[[0, -1, 0], [-1, 5, -1], [0, -1, 0]] under edge-replicate clamping at
the borders, and the alpha byte is copied through unchanged. -/
theorem c10_sharpen_spec :
    (∀ (w h : ℕ) (amount : ℚ) (data : List ℕ), amount ≤ 0 →
      applySharpen w h amount data = data) ∧
    (∀ (w h : ℕ) (amount : ℚ) (data : List ℕ) (x y ch : ℕ),
      0 < amount → x < w → y < h → ch < 3 →
      (applySharpen w h amount data).getD ((y * w + x) * 4 + ch) 0 =
        toByte (px data ((y * w + x) * 4 + ch) * (1 - amount / 100) +
          convKernel w h data x y ch * (amount / 100))) ∧
    (∀ (w h : ℕ) (amount : ℚ) (data : List ℕ) (x y : ℕ),
      0 < amount → x < w → y < h →
      (applySharpen w h amount data).getD ((y * w + x) * 4 + 3) 0 =
        data.getD ((y * w + x) * 4 + 3) 0) := by
  have hidx : ∀ w h x y ch : ℕ, x < w → y < h → ch < 4 → (y * w + x) * 4 + ch < w * h * 4 := by
    intro w h x y ch hx hy hch
    have h1 : y * w + x < h * w := by
      calc y * w + x < y * w + w := by omega
        _ = (y + 1) * w := by ring
        _ ≤ h * w := Nat.mul_le_mul_right w hy
    have h2 : h * w = w * h := Nat.mul_comm h w
    omega
  have hmod : ∀ w x y ch : ℕ, ch < 4 → ((y * w + x) * 4 + ch) % 4 = ch := by
    intro w x y ch hch
    omega
  have hdiv : ∀ w x y ch : ℕ, ch < 4 → ((y * w + x) * 4 + ch) / 4 = y * w + x := by
    intro w x y ch hch
    omega
  have hxr : ∀ w x y : ℕ, x < w → (y * w + x) % w = x := by
    intro w x y hx
    rw [show y * w + x = x + y * w from by ring, Nat.add_mul_mod_self_right,
      Nat.mod_eq_of_lt hx]
  have hyr : ∀ w x y : ℕ, x < w → (y * w + x) / w = y := by
    intro w x y hx
    have hw : 0 < w := by omega
    rw [show y * w + x = x + y * w from by ring, Nat.add_mul_div_right _ _ hw,
      Nat.div_eq_of_lt hx, Nat.zero_add]
  refine ⟨?_, ?_, ?_⟩
  · intro w h amount data ha
    unfold applySharpen
    rw [if_pos ha]
  · intro w h amount data x y ch ha hx hy hch
    unfold applySharpen
    rw [if_neg (not_le.2 ha), getD_map_range _ _ _ (hidx w h x y ch hx hy (by omega))]
    dsimp only
    rw [hmod w x y ch (by omega)]
    rw [if_neg (by omega : ¬ch = 3)]
    rw [hdiv w x y ch (by omega), hxr w x y hx, hyr w x y hx]
    rw [convChannel_eq_convKernel]
  · intro w h amount data x y ha hx hy
    unfold applySharpen
    rw [if_neg (not_le.2 ha), getD_map_range _ _ _ (hidx w h x y 3 hx hy (by omega))]
    dsimp only
    rw [hmod w x y 3 (by omega), if_pos rfl]

/-- C10 witness: the 2 x 1 gray buffer with pixels 100 and 200 at full
sharpen amount, channel R of pixel (0, 0). -/
theorem c10_sharpen_spec_witness :
    (0 : ℚ) < 100 ∧ (0 : ℕ) < 2 ∧ (0 : ℕ) < 1 ∧ (0 : ℕ) < 3 ∧
    (applySharpen 2 1 100 [100, 100, 100, 255, 200, 200, 200, 255]).getD ((0 * 2 + 0) * 4 + 0) 0 =
      toByte (px [100, 100, 100, 255, 200, 200, 200, 255] ((0 * 2 + 0) * 4 + 0) * (1 - 100 / 100) +
        convKernel 2 1 [100, 100, 100, 255, 200, 200, 200, 255] 0 0 0 * (100 / 100)) :=
  ⟨by norm_num, by norm_num, by norm_num, by norm_num,
    c10_sharpen_spec.2.1 2 1 100 [100, 100, 100, 255, 200, 200, 200, 255] 0 0 0 (by norm_num)
      (by norm_num) (by norm_num) (by norm_num)⟩

/-- C1 amended: the committed pass and the preview pass coincide when the
color-adjust settings are the identity (100/100/100) and the vignette is
0; they are not the same algorithm in general, because the committed pass
applies sharpen before color-adjust and then the vignette, while the
preview pass applies color-adjust before sharpen and never applies the
vignette to the pixel buffer. -/
theorem c1_amended_pipelines (w h : ℕ) (outerRadius : ℚ) (dist : ℕ → ℕ → ℚ) (amount : ℚ)
    (data : List ℕ) (hdata : ∀ v ∈ data, v ≤ 255) :
    commitPipeline w h outerRadius dist ⟨100, 100, 100, amount, 0⟩ data =
      previewPipeline w h ⟨100, 100, 100, amount, 0⟩ data := by
  unfold commitPipeline previewPipeline
  dsimp only
  rw [@colorAdjust_hundred (applySharpen w h amount data) (@applySharpen_le w h amount data hdata)]
  rw [@colorAdjust_hundred data hdata]
  unfold vignetteStage
  rw [if_neg (lt_irrefl (0 : ℚ))]

/-- C1 witness: a one-pixel black buffer with sharpen amount 50 and
identity color settings. -/
theorem c1_amended_pipelines_witness :
    (∀ v ∈ ([0, 0, 0, 255] : List ℕ), v ≤ 255) ∧
    commitPipeline 1 1 0 (fun _ _ => 0) ⟨100, 100, 100, 50, 0⟩ [0, 0, 0, 255] =
      previewPipeline 1 1 ⟨100, 100, 100, 50, 0⟩ [0, 0, 0, 255] :=
  ⟨by decide, c1_amended_pipelines 1 1 0 (fun _ _ => 0) 50 [0, 0, 0, 255] (by decide)⟩

set_option maxRecDepth 4000 in
set_option maxHeartbeats 2000000 in
/-- C1 counterexample: on the 2 x 1 gray buffer with pixels 100 and 200,
edits brightness 200 / contrast 100 / saturation 100 / sharpen 100 /
vignette 0 give different results in the two passes: the committed pass
(sharpen before color-adjust) yields first pixel 0 while the preview pass
(color-adjust before sharpen) yields first pixel 145, because brightness
clamps at 255 and the convolution is linear, so the order of the two
stages matters. -/
theorem c1_counterexample :
    commitPipeline 2 1 0 (fun _ _ => 0) ⟨200, 100, 100, 100, 0⟩
        [100, 100, 100, 255, 200, 200, 200, 255] ≠
      previewPipeline 2 1 ⟨200, 100, 100, 100, 0⟩ [100, 100, 100, 255, 200, 200, 200, 255] := by
  have hs1 : applySharpen 2 1 100 [100, 100, 100, 255, 200, 200, 200, 255] =
      [0, 0, 0, 255, 255, 255, 255, 255] := by
    norm_num [applySharpen, convChannel, sharpenWeights, px, toByte, roundHalfEven,
      List.range_succ]
    all_goals decide
  have hs2 : applySharpen 2 1 100 [200, 200, 200, 255, 255, 255, 255, 255] =
      [145, 145, 145, 255, 255, 255, 255, 255] := by
    norm_num [applySharpen, convChannel, sharpenWeights, px, toByte, roundHalfEven,
      List.range_succ]
    all_goals decide
  have hb1 : applyBrightness 200 [0, 0, 0, 255, 255, 255, 255, 255] =
      [0, 0, 0, 255, 255, 255, 255, 255] := by
    norm_num [applyBrightness, px, toByte, roundHalfEven, List.range_succ]
    all_goals decide
  have hb2 : applyBrightness 200 [100, 100, 100, 255, 200, 200, 200, 255] =
      [200, 200, 200, 255, 255, 255, 255, 255] := by
    norm_num [applyBrightness, px, toByte, roundHalfEven, List.range_succ]
    all_goals decide
  have hca1 : colorAdjust 200 100 100 [0, 0, 0, 255, 255, 255, 255, 255] =
      [0, 0, 0, 255, 255, 255, 255, 255] := by
    unfold colorAdjust
    rw [hb1,
      show applyContrast 100 [0, 0, 0, 255, 255, 255, 255, 255] =
        [0, 0, 0, 255, 255, 255, 255, 255] from applyContrast_hundred (by decide),
      show applySaturate 100 [0, 0, 0, 255, 255, 255, 255, 255] =
        [0, 0, 0, 255, 255, 255, 255, 255] from applySaturate_hundred (by decide)]
  have hca2 : colorAdjust 200 100 100 [100, 100, 100, 255, 200, 200, 200, 255] =
      [200, 200, 200, 255, 255, 255, 255, 255] := by
    unfold colorAdjust
    rw [hb2,
      show applyContrast 100 [200, 200, 200, 255, 255, 255, 255, 255] =
        [200, 200, 200, 255, 255, 255, 255, 255] from applyContrast_hundred (by decide),
      show applySaturate 100 [200, 200, 200, 255, 255, 255, 255, 255] =
        [200, 200, 200, 255, 255, 255, 255, 255] from applySaturate_hundred (by decide)]
  have hcommit : commitPipeline 2 1 0 (fun _ _ => 0) ⟨200, 100, 100, 100, 0⟩
      [100, 100, 100, 255, 200, 200, 200, 255] = [0, 0, 0, 255, 255, 255, 255, 255] := by
    unfold commitPipeline
    dsimp only
    rw [hs1, hca1]
    unfold vignetteStage
    rw [if_neg (lt_irrefl (0 : ℚ))]
  have hpreview : previewPipeline 2 1 ⟨200, 100, 100, 100, 0⟩
      [100, 100, 100, 255, 200, 200, 200, 255] = [145, 145, 145, 255, 255, 255, 255, 255] := by
    unfold previewPipeline
    dsimp only
    rw [hca2, hs2]
  rw [hcommit, hpreview]
  decide
